import Mathlib

/-!
Shallow embedding of the recommendation subsystem of `src/mcp_server.py`
(the `RecommendationService` class and the store operations it consumes),
together with proofs settling the frozen claims about it.

Modelling conventions:
* MongoDB documents are records; the products and purchases collections are
  Lean lists kept in collection (insertion) order.
* Python `float` prices and scores are modelled as `ℚ` (exact rationals).
* Python dicts used as tallies are association lists in insertion order,
  exactly matching CPython dict-ordering semantics.
* `ObjectId` is kept as the raw 24-hex-character string; wrapping a valid id
  with `ObjectId(...)` is the identity in this model.
* Python exceptions (`ValueError`, pymongo operation failures) are modelled
  with `Except RecError`.
* `cursor.limit(n)` follows the documented Mongo semantics: `n = 0` means
  "no limit", a negative `n` caps the result at `|n|` documents.
* A Python slice `xs[:n]` keeps `n` leading elements for `n ≥ 0`, and drops
  the trailing `|n|` elements for negative `n`.
* CPython `list.sort(key=..., reverse=True)` and the aggregation `$sort` are
  modelled by a stable descending sort (`stableSortDescBy`), realised as an
  insertion sort on index-tagged elements.
-/

/-- A document of the products collection (`products_collection`). -/
structure Product where
  id : String
  name : String
  category : String
  pieceType : String
  color : String
  price : ℚ
  stockQuantity : Nat
deriving Repr, DecidableEq

/-- A document of the purchases collection (`purchases_collection`). -/
structure Purchase where
  userId : String
  productId : String
  quantity : Nat
deriving Repr, DecidableEq

/-- The document store:`users` (only its ids matter here), `products` and
`purchases`, each in collection order. -/
structure Store where
  users : List String
  products : List Product
  purchases : List Purchase
deriving Repr, DecidableEq

/-- An element of a recommendation result: a serialized product document,
with the `recommendation_score` key present (`some`) only when the
personalised path added it. -/
structure RecItem where
  product : Product
  score : Option ℚ
deriving Repr, DecidableEq

/-- Failures of the modelled call: `invalidUserId` stands for the Python
`ValueError("ID do usuário inválido")`; `storeFailure` stands for a pymongo
operation failure raised by the server. -/
inductive RecError where
  | invalidUserId : RecError
  | storeFailure : String → RecError
deriving Repr, DecidableEq

instance {ε α : Type} [DecidableEq ε] [DecidableEq α] : DecidableEq (Except ε α) := fun a b =>
  match a, b with
  | Except.error e, Except.error e' =>
    match decEq e e' with
    | isTrue h => isTrue (congrArg Except.error h)
    | isFalse h => isFalse (fun hx => h (Except.error.inj hx))
  | Except.error _, Except.ok _ => isFalse (fun hx => Except.noConfusion hx)
  | Except.ok _, Except.error _ => isFalse (fun hx => Except.noConfusion hx)
  | Except.ok x, Except.ok y =>
    match decEq x y with
    | isTrue h => isTrue (congrArg Except.ok h)
    | isFalse h => isFalse (fun hx => h (Except.ok.inj hx))

/-- The dict produced by `_analyze_user_preferences`. -/
structure Preferences where
  preferredCategory : Option String
  preferredPieceType : Option String
  preferredColor : Option String
  averagePrice : ℚ
  categories : List (String × Nat)
  pieceTypes : List (String × Nat)
  colors : List (String × Nat)
deriving Repr, DecidableEq

/-- `bson.ObjectId.is_valid` on a string: exactly 24 hexadecimal digits. -/
def isHexChar (c : Char) : Bool :=
  (decide ('0' ≤ c) && decide (c ≤ '9')) ||
  (decide ('a' ≤ c) && decide (c ≤ 'f')) ||
  (decide ('A' ≤ c) && decide (c ≤ 'F'))

/-- `ObjectId.is_valid(user_id)` for a string argument. -/
def objectid_is_valid (s : String) : Bool :=
  s.length == 24 && s.data.all isHexChar

/-- Mongo `cursor.limit(n)`: `0` means no limit, otherwise at most `|n|`
documents are returned. -/
def mongoLimit {α : Type} (n : Int) (xs : List α) : List α :=
  if n = 0 then xs else xs.take n.natAbs

/-- Python list slice `xs[:n]`: for `n ≥ 0` the first `n` elements, for
negative `n` everything but the last `|n|` elements. -/
def pySlice {α : Type} (n : Int) (xs : List α) : List α :=
  if 0 ≤ n then xs.take n.toNat else xs.take (xs.length - n.natAbs)

/-- Python `d[k] = d.get(k, 0) + q` on an insertion-ordered dict: an existing
key keeps its position, a new key is appended. -/
def bump (k : String) (q : Nat) : List (String × Nat) → List (String × Nat)
  | [] => [(k, q)]
  | (k', v) :: rest => if k' = k then (k', v + q) :: rest else (k', v) :: bump k q rest

/-- Python `d.get(k, 0)` on a tally dict. -/
def tallyGet (m : List (String × Nat)) (k : String) : Nat :=
  match m with
  | [] => 0
  | (k', v) :: rest => if k' = k then v else tallyGet rest k

/-- Helper for `maxKey`: Python `max` keeps the first item and replaces it
only on a strictly larger value. -/
def maxKeyAux (best : String × Nat) : List (String × Nat) → String
  | [] => best.1
  | (k, v) :: rest => if best.2 < v then maxKeyAux (k, v) rest else maxKeyAux best rest

/-- Python `max(d, key=d.get) if d else None` on an insertion-ordered tally
dict: the first key attaining the maximum value. -/
def maxKey : List (String × Nat) → Option String
  | [] => none
  | p :: rest => some (maxKeyAux p rest)

/-- Ordering used to realise a stable descending sort by key: index-tagged
elements compare by strictly larger key first, ties by original index. -/
def sortRel {α β : Type} [LinearOrder β] (key : α → β) (a b : Nat × α) : Prop :=
  key b.2 < key a.2 ∨ (key a.2 = key b.2 ∧ a.1 ≤ b.1)

instance {α β : Type} [LinearOrder β] (key : α → β) : DecidableRel (sortRel key) := by
  intro a b
  unfold sortRel
  infer_instance

instance {α β : Type} [LinearOrder β] (key : α → β) : IsTotal (Nat × α) (sortRel key) := by
  constructor
  intro a b
  rcases lt_trichotomy (key a.2) (key b.2) with h | h | h
  · exact Or.inr (Or.inl h)
  · rcases Nat.le_total a.1 b.1 with h' | h'
    · exact Or.inl (Or.inr ⟨h, h'⟩)
    · exact Or.inr (Or.inr ⟨h.symm, h'⟩)
  · exact Or.inl (Or.inl h)

instance {α β : Type} [LinearOrder β] (key : α → β) : IsTrans (Nat × α) (sortRel key) := by
  constructor
  intro a b c hab hbc
  rcases hab with hab | ⟨hab, hab'⟩
  · rcases hbc with hbc | ⟨hbc, _⟩
    · exact Or.inl (hbc.trans hab)
    · exact Or.inl (hbc ▸ hab)
  · rcases hbc with hbc | ⟨hbc, hbc'⟩
    · exact Or.inl (hab ▸ hbc)
    · exact Or.inr ⟨hab.trans hbc, hab'.trans hbc'⟩

/-- Stable descending sort by `key`: the unique permutation that is sorted by
`key` descending and keeps the original relative order of equal keys.  Models
both CPython `list.sort(key=..., reverse=True)` and the aggregation `$sort`
(whose tie order Mongo leaves unspecified; the stable order is this model's
choice of that unspecified order). -/
def stableSortDescBy {α β : Type} [LinearOrder β] (key : α → β) (l : List α) : List α :=
  (l.enum.insertionSort (sortRel key)).map Prod.snd

/-- `RecommendationService._analyze_user_preferences` loop state: the three
tally dicts and the `price_range` list. -/
structure TallyState where
  categories : List (String × Nat)
  pieceTypes : List (String × Nat)
  colors : List (String × Nat)
  priceRange : List ℚ
deriving Repr, DecidableEq

/-- `products_collection.find_one({'_id': ObjectId(pid)})`. -/
def find_one_product (store : Store) (pid : String) : Option Product :=
  store.products.find? (fun p => p.id == pid)

/-- One iteration of the `_analyze_user_preferences` loop: a purchase whose
product does not resolve is skipped; otherwise each tally is bumped by the
purchase quantity and the product price is appended to `price_range`. -/
def analyzeStep (store : Store) (acc : TallyState) (purchase : Purchase) : TallyState :=
  match find_one_product store purchase.productId with
  | none => acc
  | some product =>
    { categories := bump product.category purchase.quantity acc.categories
      pieceTypes := bump product.pieceType purchase.quantity acc.pieceTypes
      colors := bump product.color purchase.quantity acc.colors
      priceRange := acc.priceRange ++ [product.price] }

/-- `RecommendationService._analyze_user_preferences`. -/
def analyze_user_preferences (store : Store) (purchases : List Purchase) : Preferences :=
  let st := purchases.foldl (analyzeStep store) ⟨[], [], [], []⟩
  { preferredCategory := maxKey st.categories
    preferredPieceType := maxKey st.pieceTypes
    preferredColor := maxKey st.colors
    averagePrice := if st.priceRange.isEmpty then 0 else st.priceRange.sum / st.priceRange.length
    categories := st.categories
    pieceTypes := st.pieceTypes
    colors := st.colors }

/-- `RecommendationService._calculate_recommendation_score`, with the same
sequential accumulation as the source. -/
def calculate_recommendation_score (product : Product) (preferences : Preferences) : ℚ :=
  let score : ℚ := 0
  let score := if preferences.preferredCategory = some product.category then score + 3 else score
  let score := if preferences.preferredPieceType = some product.pieceType then score + 2 else score
  let score := if preferences.preferredColor = some product.color then score + 3/2 else score
  if 0 < preferences.averagePrice then
    score + max 0 (1 - |product.price - preferences.averagePrice| / preferences.averagePrice)
  else score

/-- Strategy 1 query of `_get_recommendations_by_preferences`: products of the
preferred category, excluding purchased ids, in stock, capped by the
sub-limit handed to `cursor.limit`. -/
def strategyCategory (store : Store) (c : String) (excluded : List String) (subLimit : Int) : List Product :=
  mongoLimit subLimit (store.products.filter (fun p =>
    p.category == c && !excluded.contains p.id && decide (0 < p.stockQuantity)))

/-- Strategy 2 query: products of the preferred piece type, excluding
purchased ids, in stock. -/
def strategyPieceType (store : Store) (t : String) (excluded : List String) (subLimit : Int) : List Product :=
  mongoLimit subLimit (store.products.filter (fun p =>
    p.pieceType == t && !excluded.contains p.id && decide (0 < p.stockQuantity)))

/-- Strategy 3 query: products priced within ±30% of the average price,
excluding purchased ids, in stock. -/
def strategyPrice (store : Store) (avgPrice : ℚ) (excluded : List String) (subLimit : Int) : List Product :=
  mongoLimit subLimit (store.products.filter (fun p =>
    decide (avgPrice - avgPrice * (3/10) ≤ p.price) &&
    decide (p.price ≤ avgPrice + avgPrice * (3/10)) &&
    !excluded.contains p.id && decide (0 < p.stockQuantity)))

/-- Contribution of strategy 1 (`if preferences['preferred_category']:`,
Python truthiness: `None` and the empty string both skip), sub-limit
`limit // 3` (Python floor division). -/
def recs1 (store : Store) (preferences : Preferences) (excluded : List String) (limit : Int) : List Product :=
  match preferences.preferredCategory with
  | none => []
  | some c => if c.isEmpty then [] else strategyCategory store c excluded (Int.fdiv limit 3)

/-- Contribution of strategy 2: runs when the preferred piece type is truthy
and the running count is still below `limit`; sub-limit
`(limit - running_count) // 2`. -/
def recs2 (store : Store) (preferences : Preferences) (excluded : List String) (limit : Int) : List Product :=
  match preferences.preferredPieceType with
  | none => []
  | some t =>
    if !t.isEmpty && decide (((recs1 store preferences excluded limit).length : Int) < limit) then
      strategyPieceType store t excluded
        (Int.fdiv (limit - (recs1 store preferences excluded limit).length) 2)
    else []

/-- Contribution of strategy 3: runs when `average_price > 0` and the running
count is still below `limit`; sub-limit `limit - running_count`. -/
def recs3 (store : Store) (preferences : Preferences) (excluded : List String) (limit : Int) : List Product :=
  let count := ((recs1 store preferences excluded limit) ++ recs2 store preferences excluded limit).length
  if decide (0 < preferences.averagePrice) && decide ((count : Int) < limit) then
    strategyPrice store preferences.averagePrice excluded (limit - count)
  else []

/-- The raw `recommendations` list after the three strategy blocks. -/
def candidateList (store : Store) (preferences : Preferences) (excluded : List String) (limit : Int) : List Product :=
  recs1 store preferences excluded limit ++ recs2 store preferences excluded limit ++
    recs3 store preferences excluded limit

/-- The dedup-and-score loop of `_get_recommendations_by_preferences`:
first occurrence of each product id is kept and scored once, later
duplicates are dropped; `seen` is the `seen_ids` set. -/
def dedupScore (preferences : Preferences) : List Product → List String → List RecItem
  | [], _ => []
  | p :: ps, seen =>
    if seen.contains p.id then dedupScore preferences ps seen
    else { product := p, score := some (calculate_recommendation_score p preferences) } ::
      dedupScore preferences ps (p.id :: seen)

/-- The sort key `x.get('recommendation_score', 0)`. -/
def scoreKey (r : RecItem) : ℚ := r.score.getD 0

/-- `RecommendationService._get_recommendations_by_preferences`. -/
def get_recommendations_by_preferences (store : Store) (preferences : Preferences)
    (user_purchases : List Purchase) (limit : Int) : List RecItem :=
  let purchased_product_ids := user_purchases.map (fun pu => pu.productId)
  let recommendations := candidateList store preferences purchased_product_ids limit
  let unique_recommendations := dedupScore preferences recommendations []
  pySlice limit (stableSortDescBy scoreKey unique_recommendations)

/-- The `$group` stage of `_get_popular_products`: purchases grouped by
product id, quantities summed, groups in first-occurrence order (the model's
choice for Mongo's unspecified group order). -/
def aggregate_groups (purchases : List Purchase) : List (String × Nat) :=
  purchases.foldl (fun acc pu => bump pu.productId pu.quantity acc) []

/-- The aggregation result of `_get_popular_products`: groups sorted by total
quantity descending, first `limit` of them.  Only meaningful for a positive
`limit`; `get_popular_products` rejects the rest. -/
def topGroups (store : Store) (limit : Int) : List (String × Nat) :=
  (stableSortDescBy (fun g => g.2) (aggregate_groups store.purchases)).take limit.toNat

/-- `RecommendationService._get_popular_products`.  A non-positive `$limit`
is rejected by the MongoDB server, surfacing as an operation failure. -/
def get_popular_products (store : Store) (limit : Int) : Except RecError (List RecItem) :=
  if limit ≤ 0 then .error (.storeFailure "the limit must be positive")
  else
    let popular_product_ids := topGroups store limit
    if popular_product_ids.isEmpty then
      .ok ((mongoLimit limit (store.products.filter (fun p => decide (0 < p.stockQuantity)))).map
        (fun p => { product := p, score := none }))
    else
      let ids := popular_product_ids.map (fun g => g.1)
      .ok ((store.products.filter (fun p => ids.contains p.id)).map
        (fun p => { product := p, score := none }))

/-- `PurchaseService.get_user_purchases`: validates the id shape, then
filters the purchases collection by `user_id` (the date sort is omitted:
purchases are kept in collection order, which the core never relies on). -/
def get_user_purchases (store : Store) (user_id : String) : Except RecError (List Purchase) :=
  if !objectid_is_valid user_id then .error .invalidUserId
  else .ok (store.purchases.filter (fun pu => pu.userId == user_id))

/-- `RecommendationService.get_recommendations_for_user`: the only entry
point.  Note that no user-existence check and no limit validation occur. -/
def get_recommendations_for_user (store : Store) (user_id : String) (limit : Int) :
    Except RecError (List RecItem) :=
  if !objectid_is_valid user_id then .error .invalidUserId
  else
    match get_user_purchases store user_id with
    | .error e => .error e
    | .ok user_purchases =>
      if user_purchases.isEmpty then get_popular_products store limit
      else
        .ok (get_recommendations_by_preferences store
          (analyze_user_preferences store user_purchases) user_purchases limit)

/-- Spec-side helper: the purchase lines that resolve to a product, paired
with their quantity. -/
def resolvedLines (store : Store) (purchases : List Purchase) : List (Product × Nat) :=
  purchases.filterMap (fun pu => (find_one_product store pu.productId).map (fun p => (p, pu.quantity)))

/-- Spec-side helper: cumulative purchased quantity of the resolved lines
whose product has attribute value `k`. -/
def attrQty (attr : Product → String) (store : Store) (purchases : List Purchase) (k : String) : Nat :=
  (((resolvedLines store purchases).filter (fun g => attr g.1 == k)).map (fun g => g.2)).sum

/-- Spec-side helper: the per-line unit prices of the resolved lines. -/
def resolvedPrices (store : Store) (purchases : List Purchase) : List ℚ :=
  (resolvedLines store purchases).map (fun g => g.1.price)

/-- Spec-side helper: total quantity of a product id across all purchases. -/
def totalQuantity (purchases : List Purchase) (pid : String) : Nat :=
  ((purchases.filter (fun pu => pu.productId == pid)).map (fun pu => pu.quantity)).sum

/-- Spec-side restatement of the price component of the score, following the
spec's words, to be compared with `calculate_recommendation_score`. -/
def specPriceScore (product : Product) (preferences : Preferences) : ℚ :=
  if 0 < preferences.averagePrice then
    max 0 (1 - |product.price - preferences.averagePrice| / preferences.averagePrice)
  else 0

theorem mem_mongoLimit {α : Type} {n : Int} {xs : List α} {a : α}
    (h : a ∈ mongoLimit n xs) : a ∈ xs := by
  unfold mongoLimit at h
  split at h
  · exact h
  · exact (List.take_sublist _ _).subset h

theorem length_mongoLimit_le {α : Type} {n : Int} (hn : 0 < n) (xs : List α) :
    (mongoLimit n xs).length ≤ n.toNat := by
  unfold mongoLimit
  rw [if_neg (by omega), List.length_take]
  omega

theorem pySlice_sublist {α : Type} (n : Int) (xs : List α) :
    List.Sublist (pySlice n xs) xs := by
  unfold pySlice
  split <;> exact List.take_sublist _ _

theorem length_pySlice_le {α : Type} {n : Int} (hn : 0 ≤ n) (xs : List α) :
    (pySlice n xs).length ≤ n.toNat := by
  unfold pySlice
  rw [if_pos hn, List.length_take]
  omega

theorem pySlice_of_nonneg {α : Type} {n : Int} (hn : 0 ≤ n) (xs : List α) :
    pySlice n xs = xs.take n.toNat := by
  unfold pySlice
  rw [if_pos hn]

theorem stableSortDescBy_perm {α β : Type} [LinearOrder β] (key : α → β) (l : List α) :
    List.Perm (stableSortDescBy key l) l := by
  have h := (List.perm_insertionSort (sortRel key) l.enum).map Prod.snd
  rwa [List.enum_map_snd] at h

theorem stableSortDescBy_pairwise {α β : Type} [LinearOrder β] (key : α → β) (l : List α) :
    (stableSortDescBy key l).Pairwise (fun a b => key b ≤ key a) := by
  have hs : (l.enum.insertionSort (sortRel key)).Pairwise
      (fun a b : Nat × α => key b.2 ≤ key a.2) := by
    refine (List.sorted_insertionSort (sortRel key) l.enum).imp ?_
    intro a b hab
    rcases hab with h | ⟨h, _⟩
    · exact le_of_lt h
    · exact le_of_eq h.symm
  unfold stableSortDescBy
  exact List.pairwise_map.mpr hs

theorem stableSortDescBy_filter {α β : Type} [LinearOrder β] (key : α → β) (l : List α) (q : β) :
    (stableSortDescBy key l).filter (fun a => key a == q) = l.filter (fun a => key a == q) := by
  classical
  set s := l.enum.insertionSort (sortRel key) with hs
  have hperm : List.Perm s l.enum := List.perm_insertionSort (sortRel key) l.enum
  set p : Nat × α → Bool := fun x => key x.2 == q with hp
  have hpermf : List.Perm (s.filter p) (l.enum.filter p) := hperm.filter p
  -- both filtered lists are strictly sorted by the original index
  have hnodupfst : (s.map Prod.fst).Nodup := by
    have := (hperm.map Prod.fst).nodup_iff
    rw [List.enum_map_fst] at this
    exact this.mpr (List.nodup_range _)
  have hne : s.Pairwise (fun a b : Nat × α => a.1 ≠ b.1) := List.pairwise_map.mp hnodupfst
  have hsorted : s.Pairwise (sortRel key) := List.sorted_insertionSort (sortRel key) l.enum
  have hfs : (s.filter p).Pairwise (fun a b : Nat × α => a.1 < b.1) := by
    have hsub : List.Sublist (s.filter p) s := s.filter_sublist
    have h1 : (s.filter p).Pairwise (sortRel key) := hsorted.sublist hsub
    have h2 : (s.filter p).Pairwise (fun a b : Nat × α => a.1 ≠ b.1) := hne.sublist hsub
    refine (h1.and h2).imp_of_mem ?_
    intro a b ha hb hab
    have hqa : key a.2 = q := by simpa [hp] using List.of_mem_filter ha
    have hqb : key b.2 = q := by simpa [hp] using List.of_mem_filter hb
    rcases hab.1 with h | ⟨_, h⟩
    · rw [hqa, hqb] at h
      exact absurd h (lt_irrefl q)
    · exact lt_of_le_of_ne h hab.2
  have hfe : (l.enum.filter p).Pairwise (fun a b : Nat × α => a.1 < b.1) := by
    have henum : l.enum.Pairwise (fun a b : Nat × α => a.1 < b.1) := by
      have : (l.enum.map Prod.fst).Pairwise (· < ·) := by
        rw [List.enum_map_fst]
        exact List.pairwise_lt_range _
      exact List.pairwise_map.mp this
    exact henum.sublist (List.filter_sublist _)
  haveI : IsAntisymm (Nat × α) (fun a b : Nat × α => a.1 < b.1) :=
    ⟨fun a b h h' => absurd (h.trans h') (lt_irrefl _)⟩
  have heq : s.filter p = l.enum.filter p :=
    List.eq_of_perm_of_sorted hpermf hfs hfe
  have hfin : ((s.map Prod.snd).filter (fun a => key a == q)) =
      ((l.enum.map Prod.snd).filter (fun a => key a == q)) := by
    rw [List.filter_map, List.filter_map]
    have hcomp : ((fun a => key a == q) ∘ Prod.snd) = p := rfl
    rw [hcomp, heq]
  unfold stableSortDescBy
  rw [hfin, List.enum_map_snd]

theorem tallyGet_bump_self (k : String) (q : Nat) (m : List (String × Nat)) :
    tallyGet (bump k q m) k = tallyGet m k + q := by
  induction m with
  | nil => simp [bump, tallyGet]
  | cons hd tl ih =>
    obtain ⟨k', v⟩ := hd
    by_cases h : k' = k
    · subst h
      simp [bump, tallyGet]
    · simp [bump, tallyGet, h, ih]

theorem tallyGet_bump_ne (k : String) (q : Nat) (m : List (String × Nat)) (c : String)
    (h : k ≠ c) : tallyGet (bump k q m) c = tallyGet m c := by
  induction m with
  | nil => simp [bump, tallyGet, h]
  | cons hd tl ih =>
    obtain ⟨k', v⟩ := hd
    by_cases h' : k' = k
    · subst h'
      simp [bump, tallyGet, h]
    · simp [bump, tallyGet, h', ih]

theorem bump_ne_nil (k : String) (q : Nat) (m : List (String × Nat)) : bump k q m ≠ [] := by
  cases m with
  | nil => simp [bump]
  | cons hd tl =>
    obtain ⟨k', v⟩ := hd
    by_cases h : k' = k <;> simp [bump, h]

theorem mem_bump_keys (k : String) (q : Nat) (m : List (String × Nat)) :
    ∀ x ∈ bump k q m, x.1 = k ∨ x.1 ∈ m.map Prod.fst := by
  induction m with
  | nil =>
    intro x hx
    simp [bump] at hx
    simp [hx]
  | cons hd tl ih =>
    obtain ⟨k', v⟩ := hd
    intro x hx
    by_cases h' : k' = k
    · subst h'
      simp only [bump, if_pos rfl] at hx
      rcases List.mem_cons.mp hx with hx | hx
      · subst hx
        exact Or.inl rfl
      · exact Or.inr (List.mem_cons_of_mem _ (List.mem_map_of_mem Prod.fst hx))
    · simp only [bump, if_neg h'] at hx
      rcases List.mem_cons.mp hx with hx | hx
      · subst hx
        exact Or.inr (List.mem_cons_self _ _)
      · rcases ih x hx with h2 | h2
        · exact Or.inl h2
        · exact Or.inr (List.mem_cons_of_mem _ h2)

theorem bump_keys_nodup (k : String) (q : Nat) (m : List (String × Nat))
    (h : (m.map Prod.fst).Nodup) : ((bump k q m).map Prod.fst).Nodup := by
  induction m with
  | nil => simp [bump]
  | cons hd tl ih =>
    obtain ⟨k', v⟩ := hd
    simp only [List.map_cons, List.nodup_cons] at h
    by_cases h' : k' = k
    · subst h'
      simpa [bump, List.nodup_cons] using h
    · simp only [bump, if_neg h', List.map_cons, List.nodup_cons]
      constructor
      · intro hk'
        rcases List.mem_map.mp hk' with ⟨x, hx, hxe⟩
        rcases mem_bump_keys k q tl x hx with h2 | h2
        · exact h' (hxe ▸ h2)
        · exact h.1 (hxe ▸ h2)
      · exact ih h.2

theorem mem_tally_eq (m : List (String × Nat)) (g : String × Nat)
    (hmem : g ∈ m) (hnodup : (m.map Prod.fst).Nodup) : tallyGet m g.1 = g.2 := by
  induction m with
  | nil => cases hmem
  | cons hd tl ih =>
    obtain ⟨k', v⟩ := hd
    simp only [List.map_cons, List.nodup_cons] at hnodup
    rcases List.mem_cons.mp hmem with h | h
    · subst h
      simp [tallyGet]
    · have hne : k' ≠ g.1 := by
        intro he
        exact hnodup.1 (he ▸ List.mem_map_of_mem Prod.fst h)
      simp [tallyGet, hne]
      exact ih h hnodup.2

theorem tallyGet_aggregate_fold (ps : List Purchase) :
    ∀ (m : List (String × Nat)) (pid : String),
      tallyGet (ps.foldl (fun acc pu => bump pu.productId pu.quantity acc) m) pid =
        tallyGet m pid + totalQuantity ps pid := by
  induction ps with
  | nil => intro m pid; simp [totalQuantity]
  | cons pu pus ih =>
    intro m pid
    rw [List.foldl_cons, ih]
    unfold totalQuantity
    by_cases h : pu.productId = pid
    · rw [List.filter_cons_of_pos (by simpa using h)]
      rw [h, tallyGet_bump_self]
      simp only [List.map_cons, List.sum_cons]
      omega
    · rw [List.filter_cons_of_neg (by simpa using h)]
      rw [tallyGet_bump_ne _ _ _ _ h]

theorem aggregate_groups_keys_nodup (ps : List Purchase) :
    ((aggregate_groups ps).map Prod.fst).Nodup := by
  unfold aggregate_groups
  suffices h : ∀ m : List (String × Nat), (m.map Prod.fst).Nodup →
      ((ps.foldl (fun acc pu => bump pu.productId pu.quantity acc) m).map Prod.fst).Nodup by
    exact h [] (by simp)
  induction ps with
  | nil => intro m hm; simpa using hm
  | cons pu pus ih =>
    intro m hm
    rw [List.foldl_cons]
    exact ih _ (bump_keys_nodup _ _ _ hm)

theorem foldl_bump_ne_nil (ps : List Purchase) :
    ∀ m : List (String × Nat), m ≠ [] →
      ps.foldl (fun acc pu => bump pu.productId pu.quantity acc) m ≠ [] := by
  induction ps with
  | nil => intro m hm; simpa using hm
  | cons pu pus ih =>
    intro m _
    rw [List.foldl_cons]
    exact ih _ (bump_ne_nil _ _ _)

theorem aggregate_groups_ne_nil (ps : List Purchase) (h : ps ≠ []) :
    aggregate_groups ps ≠ [] := by
  unfold aggregate_groups
  cases ps with
  | nil => exact absurd rfl h
  | cons pu pus =>
    rw [List.foldl_cons]
    exact foldl_bump_ne_nil pus _ (bump_ne_nil _ _ _)

theorem mem_aggregate_totalQuantity (ps : List Purchase) (g : String × Nat)
    (h : g ∈ aggregate_groups ps) : g.2 = totalQuantity ps g.1 := by
  have h1 : tallyGet (aggregate_groups ps) g.1 = g.2 :=
    mem_tally_eq _ g h (aggregate_groups_keys_nodup ps)
  have h2 : tallyGet (aggregate_groups ps) g.1 = tallyGet [] g.1 + totalQuantity ps g.1 :=
    tallyGet_aggregate_fold ps [] g.1
  simp only [tallyGet] at h2
  omega

theorem foldl_analyzeStep_proj (store : Store) (attr : Product → String)
    (proj : TallyState → List (String × Nat))
    (hproj : ∀ acc pu, proj (analyzeStep store acc pu) =
      match find_one_product store pu.productId with
      | none => proj acc
      | some prod => bump (attr prod) pu.quantity (proj acc)) :
    ∀ (ps : List Purchase) (acc : TallyState),
      proj (ps.foldl (analyzeStep store) acc) =
        ps.foldl (fun m pu =>
          match find_one_product store pu.productId with
          | none => m
          | some prod => bump (attr prod) pu.quantity m) (proj acc) := by
  intro ps
  induction ps with
  | nil => intro acc; rfl
  | cons pu pus ih =>
    intro acc
    rw [List.foldl_cons, List.foldl_cons, ih, hproj]

theorem tallyGet_attrFold (attr : Product → String) (store : Store) (ps : List Purchase) :
    ∀ (m : List (String × Nat)) (c : String),
      tallyGet (ps.foldl (fun m pu =>
        match find_one_product store pu.productId with
        | none => m
        | some prod => bump (attr prod) pu.quantity m) m) c =
      tallyGet m c + attrQty attr store ps c := by
  induction ps with
  | nil => intro m c; simp [attrQty, resolvedLines]
  | cons pu pus ih =>
    intro m c
    rw [List.foldl_cons]
    cases hres : find_one_product store pu.productId with
    | none =>
      rw [ih]
      unfold attrQty resolvedLines
      rw [List.filterMap_cons]
      simp only [hres, Option.map_none']
    | some prod =>
      rw [ih]
      unfold attrQty resolvedLines
      rw [List.filterMap_cons]
      simp only [hres, Option.map_some']
      by_cases hc : attr prod = c
      · rw [List.filter_cons_of_pos (by simpa using hc)]
        rw [hc, tallyGet_bump_self]
        simp only [List.map_cons, List.sum_cons]
        omega
      · rw [List.filter_cons_of_neg (by simpa using hc)]
        rw [tallyGet_bump_ne _ _ _ _ hc]

theorem foldl_analyzeStep_priceRange (store : Store) (ps : List Purchase) :
    ∀ acc : TallyState,
      (ps.foldl (analyzeStep store) acc).priceRange = acc.priceRange ++ resolvedPrices store ps := by
  induction ps with
  | nil => intro acc; simp [resolvedPrices, resolvedLines]
  | cons pu pus ih =>
    intro acc
    rw [List.foldl_cons, ih]
    unfold resolvedPrices resolvedLines analyzeStep
    rw [List.filterMap_cons]
    cases hres : find_one_product store pu.productId with
    | none => simp only [Option.map_none']
    | some prod =>
      simp only [Option.map_some', List.map_cons]
      simp [List.append_assoc]

theorem dedupScore_spec (preferences : Preferences) :
    ∀ (ps : List Product) (seen : List String) (r : RecItem),
      r ∈ dedupScore preferences ps seen →
      ps.find? (fun p => p.id == r.product.id) = some r.product ∧
      r.score = some (calculate_recommendation_score r.product preferences) ∧
      r.product.id ∉ seen := by
  intro ps
  induction ps with
  | nil => intro seen r h; cases h
  | cons p ps ih =>
    intro seen r h
    unfold dedupScore at h
    by_cases hseen : seen.contains p.id
    · rw [if_pos hseen] at h
      obtain ⟨hfind, hscore, hns⟩ := ih seen r h
      have hpmem : p.id ∈ seen := List.elem_iff.mp hseen
      have hne : p.id ≠ r.product.id := fun he => hns (he ▸ hpmem)
      refine ⟨?_, hscore, hns⟩
      rw [List.find?_cons_of_neg _ (by simp [hne])]
      exact hfind
    · rw [if_neg hseen] at h
      rcases List.mem_cons.mp h with h | h
      · subst h
        exact ⟨List.find?_cons_of_pos _ (by simp), rfl,
          fun hm => hseen (List.elem_iff.mpr hm)⟩
      · obtain ⟨hfind, hscore, hns⟩ := ih (p.id :: seen) r h
        have hne : p.id ≠ r.product.id := fun he => hns (by rw [← he]; exact List.mem_cons_self _ _)
        have hns' : r.product.id ∉ seen := fun hm => hns (List.mem_cons_of_mem _ hm)
        refine ⟨?_, hscore, hns'⟩
        rw [List.find?_cons_of_neg _ (by simp [hne])]
        exact hfind

theorem dedupScore_nodup (preferences : Preferences) :
    ∀ (ps : List Product) (seen : List String),
      ((dedupScore preferences ps seen).map (fun r => r.product.id)).Nodup := by
  intro ps
  induction ps with
  | nil => intro seen; simp [dedupScore]
  | cons p ps ih =>
    intro seen
    unfold dedupScore
    by_cases hseen : seen.contains p.id
    · rw [if_pos hseen]
      exact ih seen
    · rw [if_neg hseen]
      rw [List.map_cons, List.nodup_cons]
      refine ⟨?_, ih (p.id :: seen)⟩
      intro hmem
      rcases List.mem_map.mp hmem with ⟨r, hr, hre⟩
      have := (dedupScore_spec preferences ps (p.id :: seen) r hr).2.2
      exact this (by rw [hre]; exact List.mem_cons_self _ _)

theorem mem_strategyCategory {store : Store} {c : String} {excluded : List String}
    {subLimit : Int} {p : Product} (h : p ∈ strategyCategory store c excluded subLimit) :
    p ∈ store.products ∧ excluded.contains p.id = false ∧ 0 < p.stockQuantity := by
  unfold strategyCategory at h
  have h2 := mem_mongoLimit h
  have h3 := List.mem_of_mem_filter h2
  have h4 := List.of_mem_filter h2
  simp only [Bool.and_eq_true, Bool.not_eq_true', decide_eq_true_eq] at h4
  exact ⟨h3, h4.1.2, h4.2⟩

theorem mem_strategyPieceType {store : Store} {t : String} {excluded : List String}
    {subLimit : Int} {p : Product} (h : p ∈ strategyPieceType store t excluded subLimit) :
    p ∈ store.products ∧ excluded.contains p.id = false ∧ 0 < p.stockQuantity := by
  unfold strategyPieceType at h
  have h2 := mem_mongoLimit h
  have h3 := List.mem_of_mem_filter h2
  have h4 := List.of_mem_filter h2
  simp only [Bool.and_eq_true, Bool.not_eq_true', decide_eq_true_eq] at h4
  exact ⟨h3, h4.1.2, h4.2⟩

theorem mem_strategyPrice {store : Store} {avgPrice : ℚ} {excluded : List String}
    {subLimit : Int} {p : Product} (h : p ∈ strategyPrice store avgPrice excluded subLimit) :
    p ∈ store.products ∧ excluded.contains p.id = false ∧ 0 < p.stockQuantity := by
  unfold strategyPrice at h
  have h2 := mem_mongoLimit h
  have h3 := List.mem_of_mem_filter h2
  have h4 := List.of_mem_filter h2
  simp only [Bool.and_eq_true, Bool.not_eq_true', decide_eq_true_eq] at h4
  exact ⟨h3, h4.1.2, h4.2⟩

theorem mem_recs1 {store : Store} {preferences : Preferences} {excluded : List String}
    {limit : Int} {p : Product} (h : p ∈ recs1 store preferences excluded limit) :
    p ∈ store.products ∧ excluded.contains p.id = false ∧ 0 < p.stockQuantity := by
  unfold recs1 at h
  split at h
  · cases h
  · split at h
    · cases h
    · exact mem_strategyCategory h

theorem mem_recs2 {store : Store} {preferences : Preferences} {excluded : List String}
    {limit : Int} {p : Product} (h : p ∈ recs2 store preferences excluded limit) :
    p ∈ store.products ∧ excluded.contains p.id = false ∧ 0 < p.stockQuantity := by
  unfold recs2 at h
  split at h
  · cases h
  · split at h
    · exact mem_strategyPieceType h
    · cases h

theorem mem_recs3 {store : Store} {preferences : Preferences} {excluded : List String}
    {limit : Int} {p : Product} (h : p ∈ recs3 store preferences excluded limit) :
    p ∈ store.products ∧ excluded.contains p.id = false ∧ 0 < p.stockQuantity := by
  unfold recs3 at h
  dsimp only at h
  split at h
  · exact mem_strategyPrice h
  · cases h

theorem mem_candidateList {store : Store} {preferences : Preferences} {excluded : List String}
    {limit : Int} {p : Product} (h : p ∈ candidateList store preferences excluded limit) :
    p ∈ store.products ∧ excluded.contains p.id = false ∧ 0 < p.stockQuantity := by
  unfold candidateList at h
  rcases List.mem_append.mp h with h | h
  · rcases List.mem_append.mp h with h | h
    · exact mem_recs1 h
    · exact mem_recs2 h
  · exact mem_recs3 h

theorem calculate_recommendation_score_nonneg (product : Product) (preferences : Preferences) :
    0 ≤ calculate_recommendation_score product preferences := by
  unfold calculate_recommendation_score
  dsimp only
  have h0 : (0:ℚ) ≤ max 0 (1 - |product.price - preferences.averagePrice| / preferences.averagePrice) :=
    le_max_left _ _
  split_ifs <;> linarith

/-- Well-formed user id that owns the purchase histories in the fixtures. -/
def uid1 : String := "aaaaaaaaaaaaaaaaaaaaaaaa"

/-- Well-formed id that is not a user of any fixture store. -/
def ghostId : String := "ffffffffffffffffffffffff"

/-- Product id used by an unresolvable purchase line. -/
def goneId : String := "999999999999999999999999"

/-- Fixture product: the "Casual / Camiseta / Azul, price 30" item. -/
def prodA : Product :=
  { id := "111111111111111111111111", name := "Camiseta Basica", category := "Casual",
    pieceType := "Camiseta", color := "Azul", price := 30, stockQuantity := 5 }

/-- Fixture product: the "Casual / Calca, price 90" item. -/
def prodB : Product :=
  { id := "222222222222222222222222", name := "Calca Jeans", category := "Casual",
    pieceType := "Calca", color := "Preto", price := 90, stockQuantity := 5 }

/-- Fixture product: the spec scenario's candidate C (Casual / Vestido,
price 55, in stock). -/
def prodC : Product :=
  { id := "333333333333333333333333", name := "Vestido Midi", category := "Casual",
    pieceType := "Vestido", color := "Verde", price := 55, stockQuantity := 3 }

/-- Fixture product with zero stock, purchased in the past. -/
def prodZ : Product :=
  { id := "444444444444444444444444", name := "Tenis Esportivo", category := "Esporte",
    pieceType := "Tenis", color := "Branco", price := 50, stockQuantity := 0 }

/-- Fixture product matching all three preference attributes of `prodA`. -/
def prodF : Product :=
  { id := "555555555555555555555555", name := "Camiseta Azul II", category := "Casual",
    pieceType := "Camiseta", color := "Azul", price := 30, stockQuantity := 2 }

/-- Another fixture product matching all three preference attributes. -/
def prodG : Product :=
  { id := "666666666666666666666666", name := "Camiseta Azul III", category := "Casual",
    pieceType := "Camiseta", color := "Azul", price := 30, stockQuantity := 1 }

/-- Store for claim C1: one real user with one purchase; `ghostId` is
well-formed but is no user of the store. -/
def store1 : Store :=
  { users := [uid1]
    products := [prodA]
    purchases := [{ userId := uid1, productId := prodA.id, quantity := 2 }] }

/-- Store for claim C2: `uid1` has a purchase history (whose product no
longer resolves, so the derived profile is empty). -/
def store2 : Store :=
  { users := [uid1]
    products := [prodA, prodC]
    purchases := [{ userId := uid1, productId := goneId, quantity := 2 }] }

/-- Store for claim C3: collection order is `prodA` before `prodB`, while
`prodB` has the larger total purchased quantity. -/
def store3 : Store :=
  { users := [uid1, ghostId]
    products := [prodA, prodB]
    purchases := [{ userId := uid1, productId := prodA.id, quantity := 2 },
                  { userId := uid1, productId := prodB.id, quantity := 5 }] }

/-- Store for claim C10: the only purchased product has zero stock, and the
calling user has no purchase history. -/
def store10 : Store :=
  { users := [uid1, ghostId]
    products := [prodZ]
    purchases := [{ userId := uid1, productId := prodZ.id, quantity := 3 }] }

/-- Rich fixture store shared by the C4/C6/C8/C9 witnesses: `uid1` purchased
`prodA`; `prodC`, `prodF`, `prodG` are unpurchased in-stock candidates of the
preferred category. -/
def storeR : Store :=
  { users := [uid1]
    products := [prodA, prodC, prodF, prodG]
    purchases := [{ userId := uid1, productId := prodA.id, quantity := 2 }] }

/-- The purchase list of `uid1` in `storeR`. -/
def purchasesR : List Purchase := [{ userId := uid1, productId := prodA.id, quantity := 2 }]

/-- Store for the C7 witness: the spec scenario's two lines (price 30 at
quantity 2, price 90 at quantity 1) plus one unresolvable line. -/
def store7 : Store :=
  { users := [uid1]
    products := [prodA, prodB]
    purchases := [{ userId := uid1, productId := prodA.id, quantity := 2 },
                  { userId := uid1, productId := prodB.id, quantity := 1 },
                  { userId := uid1, productId := goneId, quantity := 4 }] }

/-- The purchase list of `uid1` in `store7`. -/
def purchases7 : List Purchase :=
  [{ userId := uid1, productId := prodA.id, quantity := 2 },
   { userId := uid1, productId := prodB.id, quantity := 1 },
   { userId := uid1, productId := goneId, quantity := 4 }]

/-- The spec scenario's preference profile for claim C5: preferred category
"Casual", preferred piece type "Camiseta", preferred color "Azul", average
price 60. -/
def prefsC5 : Preferences :=
  { preferredCategory := some "Casual"
    preferredPieceType := some "Camiseta"
    preferredColor := some "Azul"
    averagePrice := 60
    categories := [("Casual", 3)]
    pieceTypes := [("Camiseta", 2), ("Calca", 1)]
    colors := [("Azul", 2), ("Preto", 1)] }

/-- Fixture product matching category and piece type with price equal to the
average price (score 3 + 2 + 1 = 6 against `prefsW6`). -/
def prodX : Product :=
  { id := "777777777777777777777777", name := "Camiseta Verde", category := "Casual",
    pieceType := "Camiseta", color := "Verde", price := 30, stockQuantity := 4 }

/-- Fixture product matching only the category, priced far outside the price
band (score 3 against `prefsW6`). -/
def prodY : Product :=
  { id := "888888888888888888888888", name := "Vestido Longo", category := "Casual",
    pieceType := "Vestido", color := "Verde", price := 90, stockQuantity := 6 }

/-- Store for the C6/C9 witnesses: `uid1` purchased `prodA`; `prodX` and
`prodY` are unpurchased in-stock candidates. -/
def storeW6 : Store :=
  { users := [uid1]
    products := [prodA, prodX, prodY]
    purchases := [{ userId := uid1, productId := prodA.id, quantity := 1 }] }

/-- The preference profile derived from `storeW6`'s purchase history. -/
def prefsW6 : Preferences :=
  { preferredCategory := some "Casual"
    preferredPieceType := some "Camiseta"
    preferredColor := some "Azul"
    averagePrice := 30
    categories := [("Casual", 1)]
    pieceTypes := [("Camiseta", 1)]
    colors := [("Azul", 1)] }

theorem analyze_storeW6 : analyze_user_preferences storeW6 storeW6.purchases = prefsW6 := by
  norm_num [analyze_user_preferences, analyzeStep, find_one_product, bump, maxKey, maxKeyAux,
    storeW6, prodA, prodX, prodY, uid1, prefsW6, Preferences.mk.injEq]

theorem score_prodX : calculate_recommendation_score prodX prefsW6 = 6 := by
  unfold calculate_recommendation_score
  dsimp only [prodX, prefsW6]
  norm_num [show ("Azul" = "Verde") = False by decide]

theorem score_prodY : calculate_recommendation_score prodY prefsW6 = 3 := by
  unfold calculate_recommendation_score
  dsimp only [prodY, prefsW6]
  norm_num [show ("Azul" = "Verde") = False by decide,
    show ("Camiseta" = "Vestido") = False by decide]

theorem candidates_storeW6 :
    candidateList storeW6 prefsW6 ["111111111111111111111111"] 2 = [prodX, prodY] := by
  decide

/-- Concrete end-to-end run used by witnesses: in `storeW6` the user with
history receives the two eligible candidates, scored and sorted. -/
theorem run_storeW6 : get_recommendations_for_user storeW6 uid1 2 =
    Except.ok [{ product := prodX, score := some 6 }, { product := prodY, score := some 3 }] := by
  unfold get_recommendations_for_user
  rw [show (!objectid_is_valid uid1) = false by decide]
  rw [show get_user_purchases storeW6 uid1 = Except.ok storeW6.purchases by decide]
  dsimp only
  rw [if_neg (show ¬storeW6.purchases.isEmpty = true by decide)]
  rw [analyze_storeW6]
  unfold get_recommendations_by_preferences
  dsimp only
  rw [show List.map (fun pu => pu.productId) storeW6.purchases =
    ["111111111111111111111111"] by decide]
  rw [candidates_storeW6]
  rw [show dedupScore prefsW6 [prodX, prodY] [] =
    [{ product := prodX, score := some (calculate_recommendation_score prodX prefsW6) },
     { product := prodY, score := some (calculate_recommendation_score prodY prefsW6) }] by
      simp [dedupScore, prodX, prodY]]
  rw [score_prodX, score_prodY]
  rw [show stableSortDescBy scoreKey
      [{ product := prodX, score := some 6 }, { product := prodY, score := some 3 }] =
      [{ product := prodX, score := some 6 }, { product := prodY, score := some 3 }] by decide]
  rfl

/-- C5: the recommendation score equals 3.0 for a category match plus 2.0
for a piece-type match plus 1.5 for a color match plus the price score
`max(0, 1 - |price - average_price| / average_price)` when the average price
is positive and 0 otherwise; in particular, against an average price of 60,
a product matching only the preferred category with price 55 scores
`3 + (1 - 5/60)`. -/
theorem C5_score_formula :
    (∀ (product : Product) (preferences : Preferences),
      calculate_recommendation_score product preferences =
        (if preferences.preferredCategory = some product.category then (3:ℚ) else 0) +
        (if preferences.preferredPieceType = some product.pieceType then 2 else 0) +
        (if preferences.preferredColor = some product.color then 3/2 else 0) +
        specPriceScore product preferences) ∧
    calculate_recommendation_score prodC prefsC5 = 3 + (1 - 5/60) := by
  constructor
  · intro product preferences
    unfold calculate_recommendation_score specPriceScore
    dsimp only
    split_ifs <;> ring
  · unfold calculate_recommendation_score
    dsimp only [prodC, prefsC5]
    norm_num [show ("Camiseta" = "Vestido") = False by decide,
      show ("Azul" = "Verde") = False by decide]

/-- C10: on the popularity-fallback path no stock filter is applied: in
`store10` the calling user has no purchase history, the purchase collection
is non-empty, and the single returned recommendation is a product whose
stock quantity is zero. -/
theorem C10_no_stock_filter_on_popular :
    store10.purchases.filter (fun pu => pu.userId == ghostId) = [] ∧
    store10.purchases ≠ [] ∧
    prodZ.stockQuantity = 0 ∧
    get_recommendations_for_user store10 ghostId 5 =
      Except.ok [{ product := prodZ, score := none }] := by
  refine ⟨by decide, by decide, by decide, by decide⟩

/-- C1 counterexample: `ghostId` is a well-formed id, is not a user of
`store1` and has no purchases there, yet the call succeeds and returns
exactly the popularity-fallback products instead of failing with a
NotFound error. -/
theorem C1_notfound_cex :
    objectid_is_valid ghostId = true ∧
    ghostId ∉ store1.users ∧
    store1.purchases.filter (fun pu => pu.userId == ghostId) = [] ∧
    get_recommendations_for_user store1 ghostId 5 =
      Except.ok [{ product := prodA, score := none }] ∧
    get_popular_products store1 5 = Except.ok [{ product := prodA, score := none }] := by
  refine ⟨by decide, by decide, by decide, by decide, by decide⟩

/-- C1 (amended): a well-formed user id with no purchases in the store is
never detected as nonexistent: the call behaves exactly as the popularity
fallback, independently of the users collection. -/
theorem C1_unknown_user_fallback (store : Store) (user_id : String) (limit : Int)
    (hvalid : objectid_is_valid user_id = true)
    (hnone : store.purchases.filter (fun pu => pu.userId == user_id) = []) :
    get_recommendations_for_user store user_id limit = get_popular_products store limit := by
  unfold get_recommendations_for_user get_user_purchases
  rw [hvalid]
  simp only [Bool.not_true, Bool.false_eq_true, if_false, hnone]
  rfl

/-- C1 witness: the amended theorem applied to `store1` and `ghostId`. -/
theorem C1_unknown_user_fallback_witness :
    get_recommendations_for_user store1 ghostId 5 = get_popular_products store1 5 :=
  C1_unknown_user_fallback store1 ghostId 5 (by decide) (by decide)

/-- C2 counterexample: `uid1` is well-formed and has purchase history in
`store2`, yet `getRecommendations(uid1, -1)` does not fail with an
InvalidArgument error: the history is fetched from the Store and the call
succeeds, returning the empty list produced by the Python slice `[:-1]`. -/
theorem C2_invalid_limit_cex :
    objectid_is_valid uid1 = true ∧
    store2.purchases.filter (fun pu => pu.userId == uid1) ≠ [] ∧
    get_recommendations_for_user store2 uid1 (-1) = Except.ok [] := by
  refine ⟨by decide, by decide, by decide⟩

/-- C2 (amended): the code performs no limit validation: for any
non-positive limit, a call with a well-formed user id that has purchase
history proceeds to the Store and returns an ordinary success (the final
Python slice merely shortens the list), never an InvalidArgument failure. -/
theorem C2_no_limit_validation (store : Store) (user_id : String) (limit : Int)
    (hvalid : objectid_is_valid user_id = true)
    (hhist : store.purchases.filter (fun pu => pu.userId == user_id) ≠ [])
    (hnp : limit ≤ 0) :
    (get_recommendations_for_user store user_id limit).isOk = true := by
  clear hnp
  unfold get_recommendations_for_user get_user_purchases
  rw [hvalid]
  simp only [Bool.not_true, Bool.false_eq_true, if_false]
  rw [if_neg (by simpa [List.isEmpty_iff] using hhist)]
  rfl

/-- C2 witness: the amended theorem applied to `store2`, `uid1`, limit -1. -/
theorem C2_no_limit_validation_witness :
    (get_recommendations_for_user store2 uid1 (-1)).isOk = true :=
  C2_no_limit_validation store2 uid1 (-1) (by decide) (by decide) (by decide)

/-- C3 counterexample: in `store3` the product with the larger summed
quantity (`prodB`, quantity 5) is returned after the product with the
smaller summed quantity (`prodA`, quantity 2): the `$in` resolution returns
collection order, so the popular result is not ordered by summed quantity
descending. -/
theorem C3_order_cex :
    get_popular_products store3 2 =
      Except.ok [{ product := prodA, score := none }, { product := prodB, score := none }] ∧
    totalQuantity store3.purchases prodA.id < totalQuantity store3.purchases prodB.id := by
  refine ⟨by decide, by decide⟩

theorem length_recs1_le (store : Store) (preferences : Preferences) (excluded : List String)
    (limit : Int) (h : 0 < Int.fdiv limit 3) :
    (recs1 store preferences excluded limit).length ≤ (Int.fdiv limit 3).toNat := by
  unfold recs1
  split
  · simp
  · split
    · simp
    · unfold strategyCategory
      exact length_mongoLimit_le h _

theorem length_recs2_le (store : Store) (preferences : Preferences) (excluded : List String)
    (limit : Int)
    (h : 0 < Int.fdiv (limit - ((recs1 store preferences excluded limit).length : Int)) 2) :
    (recs2 store preferences excluded limit).length ≤
      (Int.fdiv (limit - ((recs1 store preferences excluded limit).length : Int)) 2).toNat := by
  unfold recs2
  split
  · simp
  · split
    · unfold strategyPieceType
      exact length_mongoLimit_le h _
    · simp

theorem length_recs3_le (store : Store) (preferences : Preferences) (excluded : List String)
    (limit : Int) :
    (recs3 store preferences excluded limit).length ≤
      (limit - (((recs1 store preferences excluded limit) ++
        recs2 store preferences excluded limit).length : Int)).toNat := by
  unfold recs3
  dsimp only
  split
  · rename_i hcond
    simp only [Bool.and_eq_true, decide_eq_true_eq] at hcond
    unfold strategyPrice
    exact length_mongoLimit_le (by omega) _
  · simp

/-- C4 counterexample: with limit 1 the category strategy's sub-limit
`1 // 3` is 0, which Mongo's `cursor.limit` treats as "no limit": against
`storeR`'s derived profile the strategy contributes three candidates, more
than the claimed bound of `limit // 3 = 0`. -/
theorem C4_sublimit_cex :
    recs1 storeR (analyze_user_preferences storeR purchasesR) [prodA.id] 1 =
      [prodC, prodF, prodG] ∧
    Int.fdiv 1 3 = 0 := by
  refine ⟨by decide, by decide⟩

/-- C4 (amended): each strategy's contribution is bounded by its computed
sub-limit whenever that sub-limit is positive (the price-band sub-limit is
positive whenever the strategy runs, so its bound is unconditional); when a
computed sub-limit is 0, Mongo's `limit(0)` means no limit at all and the
strategy may contribute every matching product. -/
theorem C4_sublimit_bounds (store : Store) (preferences : Preferences) (excluded : List String)
    (limit : Int)
    (h1 : 0 < Int.fdiv limit 3)
    (h2 : 0 < Int.fdiv (limit - ((recs1 store preferences excluded limit).length : Int)) 2) :
    (recs1 store preferences excluded limit).length ≤ (Int.fdiv limit 3).toNat ∧
    (recs2 store preferences excluded limit).length ≤
      (Int.fdiv (limit - ((recs1 store preferences excluded limit).length : Int)) 2).toNat ∧
    (recs3 store preferences excluded limit).length ≤
      (limit - (((recs1 store preferences excluded limit) ++
        recs2 store preferences excluded limit).length : Int)).toNat :=
  ⟨length_recs1_le store preferences excluded limit h1,
   length_recs2_le store preferences excluded limit h2,
   length_recs3_le store preferences excluded limit⟩

/-- C4 witness: the amended bounds at `storeR` with limit 6, where both
computed sub-limits are positive. -/
theorem C4_sublimit_bounds_witness :
    (recs1 storeR (analyze_user_preferences storeR purchasesR) [prodA.id] 6).length ≤
      (Int.fdiv 6 3).toNat ∧
    (recs2 storeR (analyze_user_preferences storeR purchasesR) [prodA.id] 6).length ≤
      (Int.fdiv (6 - ((recs1 storeR (analyze_user_preferences storeR purchasesR)
        [prodA.id] 6).length : Int)) 2).toNat ∧
    (recs3 storeR (analyze_user_preferences storeR purchasesR) [prodA.id] 6).length ≤
      (6 - (((recs1 storeR (analyze_user_preferences storeR purchasesR) [prodA.id] 6) ++
        recs2 storeR (analyze_user_preferences storeR purchasesR) [prodA.id] 6).length : Int)).toNat :=
  C4_sublimit_bounds storeR (analyze_user_preferences storeR purchasesR) [prodA.id] 6
    (by decide) (by decide)

/-- C7: for a non-empty purchase list, each preference tally maps an
attribute value to the total purchased quantity of the resolved lines with
that value (quantity-weighted, not event-counted); unresolved purchases
contribute nothing; and the average price is the unweighted mean of the
resolved lines' unit prices (0 when nothing resolved). -/
theorem C7_preference_profile (store : Store) (purchases : List Purchase)
    (hne : purchases ≠ []) :
    (∀ c, tallyGet (analyze_user_preferences store purchases).categories c =
      attrQty (fun p => p.category) store purchases c) ∧
    (∀ t, tallyGet (analyze_user_preferences store purchases).pieceTypes t =
      attrQty (fun p => p.pieceType) store purchases t) ∧
    (∀ col, tallyGet (analyze_user_preferences store purchases).colors col =
      attrQty (fun p => p.color) store purchases col) ∧
    (analyze_user_preferences store purchases).averagePrice =
      (if resolvedPrices store purchases = [] then 0 else
        (resolvedPrices store purchases).sum / (resolvedPrices store purchases).length) := by
  clear hne
  have hcat := foldl_analyzeStep_proj store (fun p => p.category) (fun st => st.categories)
    (by
      intro acc pu
      unfold analyzeStep
      rcases h : find_one_product store pu.productId with _ | prod <;> simp [h])
    purchases ⟨[], [], [], []⟩
  have hpt := foldl_analyzeStep_proj store (fun p => p.pieceType) (fun st => st.pieceTypes)
    (by
      intro acc pu
      unfold analyzeStep
      rcases h : find_one_product store pu.productId with _ | prod <;> simp [h])
    purchases ⟨[], [], [], []⟩
  have hcol := foldl_analyzeStep_proj store (fun p => p.color) (fun st => st.colors)
    (by
      intro acc pu
      unfold analyzeStep
      rcases h : find_one_product store pu.productId with _ | prod <;> simp [h])
    purchases ⟨[], [], [], []⟩
  refine ⟨?_, ?_, ?_, ?_⟩
  · intro c
    unfold analyze_user_preferences
    dsimp only
    rw [hcat, tallyGet_attrFold]
    simp [tallyGet]
  · intro t
    unfold analyze_user_preferences
    dsimp only
    rw [hpt, tallyGet_attrFold]
    simp [tallyGet]
  · intro col
    unfold analyze_user_preferences
    dsimp only
    rw [hcol, tallyGet_attrFold]
    simp [tallyGet]
  · unfold analyze_user_preferences
    dsimp only
    rw [foldl_analyzeStep_priceRange store purchases ⟨[], [], [], []⟩]
    rw [show (⟨[], [], [], []⟩ : TallyState).priceRange = [] from rfl, List.nil_append]
    simp [List.isEmpty_iff]

/-- C7 witness: the spec scenario — lines priced 30 (quantity 2) and 90
(quantity 1) plus one unresolvable line give a "Casual" tally of 3 and an
average price of 60. -/
theorem C7_preference_profile_witness :
    tallyGet (analyze_user_preferences store7 purchases7).categories "Casual" =
      attrQty (fun p => p.category) store7 purchases7 "Casual" ∧
    attrQty (fun p => p.category) store7 purchases7 "Casual" = 3 ∧
    (analyze_user_preferences store7 purchases7).averagePrice = 60 := by
  have h := C7_preference_profile store7 purchases7 (by decide)
  refine ⟨h.1 "Casual", by decide, ?_⟩
  rw [h.2.2.2]
  rw [show resolvedPrices store7 purchases7 = [30, 90] by decide]
  rw [if_neg (by simp : ¬([(30:ℚ), 90] = []))]
  norm_num [List.sum_cons, List.sum_nil]

/-- C8: for a positive limit, the personalised output keeps at most one
item per product id (the first candidate in generation order, scored
exactly once), is sorted by score descending with equal scores preserving
first-seen order (expressed by the filter equation of the last conjunct),
is truncated to at most `limit` items, and every score is ≥ 0. -/
theorem C8_output_shape (store : Store) (preferences : Preferences)
    (user_purchases : List Purchase) (limit : Int) (hlim : 0 < limit) :
    ((get_recommendations_by_preferences store preferences user_purchases limit).map
      (fun r => r.product.id)).Nodup ∧
    (get_recommendations_by_preferences store preferences user_purchases limit).Pairwise
      (fun a b => scoreKey b ≤ scoreKey a) ∧
    (get_recommendations_by_preferences store preferences user_purchases limit).length ≤
      limit.toNat ∧
    (∀ r ∈ get_recommendations_by_preferences store preferences user_purchases limit,
      (candidateList store preferences (user_purchases.map (fun pu => pu.productId))
        limit).find? (fun p => p.id == r.product.id) = some r.product ∧
      r.score = some (calculate_recommendation_score r.product preferences) ∧
      0 ≤ scoreKey r) ∧
    (∀ q : ℚ,
      (get_recommendations_by_preferences store preferences user_purchases limit).filter
          (fun r => scoreKey r == q) ++
        ((stableSortDescBy scoreKey (dedupScore preferences
          (candidateList store preferences (user_purchases.map (fun pu => pu.productId))
            limit) [])).drop limit.toNat).filter (fun r => scoreKey r == q) =
      (dedupScore preferences (candidateList store preferences
        (user_purchases.map (fun pu => pu.productId)) limit) []).filter
        (fun r => scoreKey r == q)) := by
  have hR : get_recommendations_by_preferences store preferences user_purchases limit =
      (stableSortDescBy scoreKey (dedupScore preferences
        (candidateList store preferences (user_purchases.map (fun pu => pu.productId)) limit)
        [])).take limit.toNat := by
    unfold get_recommendations_by_preferences
    dsimp only
    rw [pySlice_of_nonneg (le_of_lt hlim)]
  rw [hR]
  refine ⟨?_, ?_, ?_, ?_, ?_⟩
  · have hdd := dedupScore_nodup preferences
      (candidateList store preferences (user_purchases.map (fun pu => pu.productId)) limit) []
    have hsortednodup := ((stableSortDescBy_perm scoreKey _).map
      (fun r => r.product.id)).nodup_iff.mpr hdd
    exact hsortednodup.sublist ((List.take_sublist _ _).map _)
  · exact (stableSortDescBy_pairwise scoreKey _).sublist (List.take_sublist _ _)
  · rw [List.length_take]
    omega
  · intro r hr
    have h1 : r ∈ stableSortDescBy scoreKey (dedupScore preferences
        (candidateList store preferences (user_purchases.map (fun pu => pu.productId)) limit)
        []) := (List.take_sublist _ _).subset hr
    have h2 : r ∈ dedupScore preferences
        (candidateList store preferences (user_purchases.map (fun pu => pu.productId)) limit)
        [] := (stableSortDescBy_perm scoreKey _).subset h1
    obtain ⟨hfind, hscore, -⟩ := dedupScore_spec preferences _ [] r h2
    refine ⟨hfind, hscore, ?_⟩
    unfold scoreKey
    rw [hscore]
    exact calculate_recommendation_score_nonneg r.product preferences
  · intro q
    rw [← List.filter_append, List.take_append_drop]
    exact stableSortDescBy_filter scoreKey _ q

/-- C8 witness: the sortedness, deduplication and truncation conjuncts at
`storeR` with limit 2. -/
theorem C8_output_shape_witness :
    ((get_recommendations_by_preferences storeR
      (analyze_user_preferences storeR purchasesR) purchasesR 2).map
      (fun r => r.product.id)).Nodup ∧
    (get_recommendations_by_preferences storeR
      (analyze_user_preferences storeR purchasesR) purchasesR 2).Pairwise
      (fun a b => scoreKey b ≤ scoreKey a) ∧
    (get_recommendations_by_preferences storeR
      (analyze_user_preferences storeR purchasesR) purchasesR 2).length ≤ (2:Int).toNat := by
  have h := C8_output_shape storeR (analyze_user_preferences storeR purchasesR) purchasesR 2
    (by decide)
  exact ⟨h.1, h.2.1, h.2.2.1⟩

/-- C6: on the has-history path, no returned recommendation's product id
appears among the product ids of the requesting user's purchase history. -/
theorem C6_no_self_recommendation (store : Store) (user_id : String) (limit : Int)
    (l : List RecItem)
    (hok : get_recommendations_for_user store user_id limit = Except.ok l)
    (hne : store.purchases.filter (fun pu => pu.userId == user_id) ≠ []) :
    ∀ r ∈ l, r.product.id ∉
      (store.purchases.filter (fun pu => pu.userId == user_id)).map
        (fun pu => pu.productId) := by
  intro r hr
  by_cases hvalid : objectid_is_valid user_id = true
  · unfold get_recommendations_for_user get_user_purchases at hok
    rw [hvalid] at hok
    simp only [Bool.not_true, Bool.false_eq_true, if_false] at hok
    rw [if_neg (by simpa [List.isEmpty_iff] using hne)] at hok
    have hl := Except.ok.inj hok
    subst hl
    unfold get_recommendations_by_preferences at hr
    dsimp only at hr
    have h1 := (pySlice_sublist _ _).subset hr
    have h2 := (stableSortDescBy_perm scoreKey _).subset h1
    obtain ⟨hfind, -, -⟩ := dedupScore_spec _ _ [] r h2
    have h4 := List.mem_of_find?_eq_some hfind
    have h5 := mem_candidateList h4
    intro hmem
    have h6 : ((store.purchases.filter (fun pu => pu.userId == user_id)).map
        (fun pu => pu.productId)).contains r.product.id = true := List.elem_iff.mpr hmem
    rw [h5.2.1] at h6
    cases h6
  · rw [Bool.not_eq_true] at hvalid
    unfold get_recommendations_for_user at hok
    rw [hvalid] at hok
    simp at hok

/-- C6 witness: in the `storeW6` run, the first returned recommendation's
product id is not among the user's purchased product ids. -/
theorem C6_no_self_recommendation_witness :
    ({ product := prodX, score := some 6 } : RecItem).product.id ∉
      (storeW6.purchases.filter (fun pu => pu.userId == uid1)).map
        (fun pu => pu.productId) :=
  C6_no_self_recommendation storeW6 uid1 2
    [{ product := prodX, score := some 6 }, { product := prodY, score := some 3 }]
    run_storeW6 (by decide)
    { product := prodX, score := some 6 } (List.mem_cons_self _ _)

theorem length_filter_contains_le (l : List Product) (ids : List String)
    (hnod : (l.map (fun p => p.id)).Nodup) :
    (l.filter (fun p => ids.contains p.id)).length ≤ ids.length := by
  have hsub : List.Sublist ((l.filter (fun p => ids.contains p.id)).map (fun p => p.id))
      (l.map (fun p => p.id)) := (List.filter_sublist _).map _
  have hnd : ((l.filter (fun p => ids.contains p.id)).map (fun p => p.id)).Nodup :=
    hnod.sublist hsub
  have hss : ((l.filter (fun p => ids.contains p.id)).map (fun p => p.id)) ⊆ ids := by
    intro x hx
    rcases List.mem_map.mp hx with ⟨p, hp, hpe⟩
    have := List.of_mem_filter hp
    rw [← hpe]
    exact List.elem_iff.mp this
  have := (hnd.subperm hss).length_le
  rwa [List.length_map] at this

/-- C9: whenever a call with a positive limit succeeds (on any of the three
paths), the returned list has at most `limit` elements. -/
theorem C9_limit_respected (store : Store) (user_id : String) (limit : Int) (l : List RecItem)
    (hlim : 0 < limit) (hnodup : (store.products.map (fun p => p.id)).Nodup)
    (hok : get_recommendations_for_user store user_id limit = Except.ok l) :
    l.length ≤ limit.toNat := by
  by_cases hvalid : objectid_is_valid user_id = true
  · unfold get_recommendations_for_user get_user_purchases at hok
    rw [hvalid] at hok
    simp only [Bool.not_true, Bool.false_eq_true, if_false] at hok
    by_cases hemp : (store.purchases.filter (fun pu => pu.userId == user_id)).isEmpty = true
    · rw [if_pos hemp] at hok
      unfold get_popular_products at hok
      rw [if_neg (by omega)] at hok
      dsimp only at hok
      by_cases htop : (topGroups store limit).isEmpty = true
      · rw [if_pos htop] at hok
        have hl := (Except.ok.inj hok).symm
        subst hl
        rw [List.length_map]
        exact length_mongoLimit_le hlim _
      · rw [if_neg htop] at hok
        have hl := (Except.ok.inj hok).symm
        subst hl
        rw [List.length_map]
        have h1 := length_filter_contains_le store.products
          ((topGroups store limit).map (fun g => g.1)) hnodup
        have h2 : ((topGroups store limit).map (fun g => g.1)).length ≤ limit.toNat := by
          rw [List.length_map]
          unfold topGroups
          rw [List.length_take]
          omega
        omega
    · rw [if_neg hemp] at hok
      have hl := (Except.ok.inj hok).symm
      subst hl
      unfold get_recommendations_by_preferences
      dsimp only
      exact length_pySlice_le (le_of_lt hlim) _
  · rw [Bool.not_eq_true] at hvalid
    unfold get_recommendations_for_user at hok
    rw [hvalid] at hok
    simp at hok

/-- C9 witness: the `storeW6` run with limit 2 returns two items, within
the limit. -/
theorem C9_limit_respected_witness :
    get_recommendations_for_user storeW6 uid1 2 =
      Except.ok [{ product := prodX, score := some 6 }, { product := prodY, score := some 3 }] ∧
    ([{ product := prodX, score := some 6 },
      { product := prodY, score := some 3 }] : List RecItem).length ≤ (2:Int).toNat :=
  ⟨run_storeW6,
   C9_limit_respected storeW6 uid1 2 _ (by decide) (by decide) run_storeW6⟩

/-- C3 (amended): for a user with no history over a non-empty purchase
collection, the returned products are exactly those whose ids are among the
top-`limit` aggregation groups — every group kept outranks (in total
quantity) every group left out, and each kept group's quantity is the true
summed quantity — but they are resolved in product-collection order, not in
quantity-descending order. -/
theorem C3_popular_top_membership (store : Store) (limit : Int)
    (hlim : 0 < limit) (hps : store.purchases ≠ []) :
    get_popular_products store limit =
      Except.ok ((store.products.filter (fun p =>
        ((topGroups store limit).map (fun g => g.1)).contains p.id)).map
        (fun p => { product := p, score := none })) ∧
    (∀ g ∈ topGroups store limit, ∀ g' ∈ aggregate_groups store.purchases,
      g'.1 ∉ (topGroups store limit).map (fun g => g.1) → g'.2 ≤ g.2) ∧
    (∀ g ∈ topGroups store limit, g.2 = totalQuantity store.purchases g.1) := by
  have hagg : aggregate_groups store.purchases ≠ [] := aggregate_groups_ne_nil _ hps
  have hsortne : stableSortDescBy (fun g => g.2) (aggregate_groups store.purchases) ≠ [] := by
    intro h
    have hlen := (stableSortDescBy_perm (fun g => g.2) (aggregate_groups store.purchases)).length_eq
    rw [h] at hlen
    exact hagg (List.length_eq_zero.mp hlen.symm)
  have htop : topGroups store limit ≠ [] := by
    unfold topGroups
    intro h
    have hl := congrArg List.length h
    rw [List.length_take, List.length_nil] at hl
    rcases Nat.min_eq_zero_iff.mp hl with h0 | h0
    · omega
    · exact hsortne (List.length_eq_zero.mp h0)
  refine ⟨?_, ?_, ?_⟩
  · unfold get_popular_products
    rw [if_neg (by omega)]
    dsimp only
    rw [if_neg (by simpa [List.isEmpty_iff] using htop)]
  · intro g hg g' hg' hnot
    have hpw := stableSortDescBy_pairwise (fun g => g.2) (aggregate_groups store.purchases)
    have hsplit : stableSortDescBy (fun g => g.2) (aggregate_groups store.purchases) =
        (stableSortDescBy (fun g => g.2) (aggregate_groups store.purchases)).take limit.toNat ++
        (stableSortDescBy (fun g => g.2) (aggregate_groups store.purchases)).drop limit.toNat :=
      (List.take_append_drop _ _).symm
    rw [hsplit] at hpw
    have hsplitp := List.pairwise_append.mp hpw
    have hg's : g' ∈ stableSortDescBy (fun g => g.2) (aggregate_groups store.purchases) :=
      (stableSortDescBy_perm (fun g => g.2) (aggregate_groups store.purchases)).symm.subset hg'
    rw [hsplit] at hg's
    rcases List.mem_append.mp hg's with h | h
    · exact absurd (List.mem_map_of_mem (fun g => g.1) h) hnot
    · exact hsplitp.2.2 g hg g' h
  · intro g hg
    have hgs : g ∈ stableSortDescBy (fun g => g.2) (aggregate_groups store.purchases) :=
      (List.take_sublist _ _).subset hg
    have hga : g ∈ aggregate_groups store.purchases :=
      (stableSortDescBy_perm (fun g => g.2) (aggregate_groups store.purchases)).subset hgs
    exact mem_aggregate_totalQuantity _ g hga

/-- C3 witness: the amended theorem at `store3` with limit 2, whose second
popular group carries the true total quantity 5. -/
theorem C3_popular_top_membership_witness :
    get_popular_products store3 2 =
      Except.ok ((store3.products.filter (fun p =>
        ((topGroups store3 2).map (fun g => g.1)).contains p.id)).map
        (fun p => { product := p, score := none })) ∧
    (("222222222222222222222222", 5) : String × Nat).2 =
      totalQuantity store3.purchases (("222222222222222222222222", 5) : String × Nat).1 := by
  have h := C3_popular_top_membership store3 2 (by decide) (by decide)
  exact ⟨h.1, h.2.2 ("222222222222222222222222", 5) (by decide)⟩
